import Mathlib

set_option maxRecDepth 100000

/-!
Verification of the Signature-Derived Key Encryption Protocol implemented in
`src/utils/encryption.ts` (functions `deriveKeypairFromWallet`, `encryptMessage`,
`decryptMessage`, `safelyDecodeBytes`, `safeDecryptToString`,
`validateEncryptedData`).  Byte buffers (`Uint8Array`) are embedded as
`List Nat` with each entry below 256; strings are Lean `String`s; exceptions
are `Except String`.
-/

/-- A byte buffer (`Uint8Array` in the source): a list of naturals below 256. -/
abbrev Bytes := List Nat

/-- `n` space characters, used by the pretty JSON serializer. -/
def spaces (n : Nat) : String := String.mk (List.replicate n ' ')

/-- Two-digit lowercase hex of one byte (models `b.toString(16).padStart(2, '0')`). -/
def byteHex (b : Nat) : String :=
  String.mk [Nat.digitChar (b / 16 % 16), Nat.digitChar (b % 16)]

/-- Space-separated hex dump (models `Array.from(bytes).map(..toString(16)..).join(' ')`). -/
def hexSpaced (l : Bytes) : String := String.intercalate " " (l.map byteHex)

/-- First `n` characters of a string (models `String.prototype.slice(0, n)`;
the source only slices ASCII base64/hex strings, where UTF-16 units and
characters coincide). -/
def sliceTo (s : String) (n : Nat) : String := String.mk (s.data.take n)

/-! ### UTF-8 (models `TextEncoder` / `TextDecoder('utf-8', \x7b fatal: true \x7d)`) -/

/-- UTF-8 bytes of one unicode scalar value. -/
def utf8EncodeCh (c : Char) : Bytes :=
  let n := c.toNat
  if n < 128 then [n]
  else if n < 2048 then [192 + n / 64, 128 + n % 64]
  else if n < 65536 then [224 + n / 4096, 128 + n / 64 % 64, 128 + n % 64]
  else [240 + n / 262144, 128 + n / 4096 % 64, 128 + n / 64 % 64, 128 + n % 64]

/-- UTF-8 encoding of a string (models `new TextEncoder().encode(s)`). -/
def utf8Encode (s : String) : Bytes := (s.data.map utf8EncodeCh).flatten

/-- Strict UTF-8 decoding loop: rejects overlong forms, surrogates, values
above U+10FFFF and truncated sequences, as `TextDecoder` with `fatal: true` does.
The fuel argument only bounds the recursion; `l.length` steps always suffice. -/
def utf8DecodeAux : Nat → Bytes → Option (List Char)
  | _, [] => some []
  | 0, _ :: _ => none
  | fuel + 1, b :: rest =>
    if b < 128 then (utf8DecodeAux fuel rest).map (fun cs => Char.ofNat b :: cs)
    else if b < 194 then none
    else if b < 224 then
      match rest with
      | b2 :: rest2 =>
        if 128 ≤ b2 ∧ b2 < 192 then
          (utf8DecodeAux fuel rest2).map
            (fun cs => Char.ofNat ((b - 192) * 64 + (b2 - 128)) :: cs)
        else none
      | [] => none
    else if b < 240 then
      match rest with
      | b2 :: b3 :: rest3 =>
        let lo2 := if b = 224 then 160 else 128
        let hi2 := if b = 237 then 159 else 191
        if lo2 ≤ b2 ∧ b2 ≤ hi2 ∧ 128 ≤ b3 ∧ b3 < 192 then
          (utf8DecodeAux fuel rest3).map
            (fun cs => Char.ofNat ((b - 224) * 4096 + (b2 - 128) * 64 + (b3 - 128)) :: cs)
        else none
      | _ => none
    else if b < 245 then
      match rest with
      | b2 :: b3 :: b4 :: rest4 =>
        let lo2 := if b = 240 then 144 else 128
        let hi2 := if b = 244 then 143 else 191
        if lo2 ≤ b2 ∧ b2 ≤ hi2 ∧ 128 ≤ b3 ∧ b3 < 192 ∧ 128 ≤ b4 ∧ b4 < 192 then
          (utf8DecodeAux fuel rest4).map
            (fun cs =>
              Char.ofNat ((b - 240) * 262144 + (b2 - 128) * 4096 +
                (b3 - 128) * 64 + (b4 - 128)) :: cs)
        else none
      | _ => none
    else none

/-- Strict UTF-8 decoding of a byte buffer; `none` models the `TypeError`
thrown by `TextDecoder('utf-8', \x7b fatal: true \x7d).decode`. -/
def utf8Decode (l : Bytes) : Option String :=
  (utf8DecodeAux l.length l).map String.mk

/-! ### Base64 (models `tweetnacl-util` `encodeBase64` / `decodeBase64`) -/

/-- Character of one 6-bit group in the standard base64 alphabet. -/
def b64Char (n : Nat) : Char :=
  if n < 26 then Char.ofNat (65 + n)
  else if n < 52 then Char.ofNat (97 + (n - 26))
  else if n < 62 then Char.ofNat (48 + (n - 52))
  else if n = 62 then '+' else '/'

/-- Base64 encoding of a byte list, three bytes per group, `=`-padded. -/
def b64EncodeAux : Bytes → List Char
  | [] => []
  | [a] => [b64Char (a / 4), b64Char (a % 4 * 16), '=', '=']
  | [a, b] => [b64Char (a / 4), b64Char (a % 4 * 16 + b / 16), b64Char (b % 16 * 4), '=']
  | a :: b :: c :: rest =>
    b64Char (a / 4) :: b64Char (a % 4 * 16 + b / 16) ::
      b64Char (b % 16 * 4 + c / 64) :: b64Char (c % 64) :: b64EncodeAux rest

/-- Models `encodeBase64` of tweetnacl-util. -/
def encodeBase64S (l : Bytes) : String := String.mk (b64EncodeAux l)

/-- Value of one base64 alphabet character. -/
def b64Val (c : Char) : Option Nat :=
  let n := c.toNat
  if 65 ≤ n ∧ n ≤ 90 then some (n - 65)
  else if 97 ≤ n ∧ n ≤ 122 then some (n - 97 + 26)
  else if 48 ≤ n ∧ n ≤ 57 then some (n - 48 + 52)
  else if c = '+' then some 62
  else if c = '/' then some 63
  else none

/-- Strict padded base64 decoding, four characters per group. -/
def b64DecodeAux : List Char → Option Bytes
  | [] => some []
  | c1 :: c2 :: c3 :: c4 :: rest =>
    match b64Val c1, b64Val c2 with
    | some v1, some v2 =>
      if c3 = '=' then
        if c4 = '=' ∧ rest = [] then some [v1 * 4 + v2 / 16] else none
      else
        match b64Val c3 with
        | some v3 =>
          if c4 = '=' then
            if rest = [] then some [v1 * 4 + v2 / 16, v2 % 16 * 16 + v3 / 4] else none
          else
            match b64Val c4 with
            | some v4 =>
              (b64DecodeAux rest).map
                (fun bs => (v1 * 4 + v2 / 16) :: (v2 % 16 * 16 + v3 / 4) :: (v3 % 4 * 64 + v4) :: bs)
            | none => none
        | none => none
    | _, _ => none
  | _ => none

/-- Models `decodeBase64` of tweetnacl-util; a malformed string throws. -/
def decodeBase64E (s : String) : Except String Bytes :=
  match b64DecodeAux s.data with
  | some bs => Except.ok bs
  | none => Except.error "invalid base64 string"

/-! ### Base58 (models the `bs58` package) -/

/-- The bitcoin base58 alphabet used by `bs58`. -/
def b58Alphabet : List Char :=
  "123456789ABCDEFGHJKLMNPQRSTUVWXYZabcdefghijkmnopqrstuvwxyz".data

/-- Index of a character in a character list. -/
def charIdx : List Char → Char → Nat → Option Nat
  | [], _, _ => none
  | a :: rest, c, i => if a = c then some i else charIdx rest c (i + 1)

/-- Value of one base58 character. -/
def b58Val (c : Char) : Option Nat := charIdx b58Alphabet c 0

/-- Big-endian base58 accumulation. -/
def b58DecodeAux : List Char → Nat → Option Nat
  | [], acc => some acc
  | c :: cs, acc =>
    match b58Val c with
    | some v => b58DecodeAux cs (acc * 58 + v)
    | none => none

/-- Count of leading `'1'` characters (each stands for one zero byte). -/
def countLeadingOnes : List Char → Nat
  | [] => 0
  | c :: cs => if c = '1' then countLeadingOnes cs + 1 else 0

/-- Big-endian byte expansion of a natural number; 100 digits of fuel cover
any value the protocol handles. -/
def natToBytesAux : Nat → Nat → Bytes → Bytes
  | 0, _, acc => acc
  | f + 1, n, acc => if n = 0 then acc else natToBytesAux f (n / 256) (n % 256 :: acc)

/-- Models `bs58.decode`; a non-alphabet character throws. -/
def fromBase58E (s : String) : Except String Bytes :=
  match b58DecodeAux s.data 0 with
  | none => Except.error "Non-base58 character"
  | some n =>
    Except.ok (List.replicate (countLeadingOnes s.data) 0 ++ natToBytesAux 100 n [])

/-- Big-endian numeric value of a byte list. -/
def bytesToNat (l : Bytes) : Nat := l.foldl (fun acc b => acc * 256 + b) 0

/-- Base58 digit expansion of a natural number. -/
def natToB58Aux : Nat → Nat → List Char → List Char
  | 0, _, acc => acc
  | f + 1, n, acc =>
    if n = 0 then acc
    else natToB58Aux f (n / 58) ((b58Alphabet.getD (n % 58) '1') :: acc)

/-- Count of leading zero bytes. -/
def countLeadingZeros : Bytes → Nat
  | [] => 0
  | b :: bs => if b = 0 then countLeadingZeros bs + 1 else 0

/-- Models `bs58.encode`. -/
def toBase58 (l : Bytes) : String :=
  String.mk (List.replicate (countLeadingZeros l) '1' ++ natToB58Aux 100 (bytesToNat l) [])

/-! ### JSON (models the `JSON.parse` / `JSON.stringify` fragment the protocol uses:
null, booleans, integer numbers, strings, arrays and objects; number fractions
and exponents lie outside the fragment and are rejected rather than misread) -/

/-- JSON values as produced by `JSON.parse` on the protocol's payloads. -/
inductive JsonValue where
  | null : JsonValue
  | bool (b : Bool) : JsonValue
  | num (n : Int) : JsonValue
  | str (s : String) : JsonValue
  | arr (elems : List JsonValue) : JsonValue
  | obj (members : List (String × JsonValue)) : JsonValue

/-- JSON whitespace. -/
def isWsChar (c : Char) : Bool := c = ' ' ∨ c = '\t' ∨ c = '\n' ∨ c = '\r'

/-- Drop leading JSON whitespace. -/
def skipWs : List Char → List Char
  | [] => []
  | c :: cs => if isWsChar c then skipWs cs else c :: cs

/-- Hex digit value. -/
def hexVal (c : Char) : Option Nat :=
  let n := c.toNat
  if 48 ≤ n ∧ n ≤ 57 then some (n - 48)
  else if 97 ≤ n ∧ n ≤ 102 then some (n - 97 + 10)
  else if 65 ≤ n ∧ n ≤ 70 then some (n - 65 + 10)
  else none

/-- Decimal digit value. -/
def digitVal (c : Char) : Option Nat :=
  if 48 ≤ c.toNat ∧ c.toNat ≤ 57 then some (c.toNat - 48) else none

/-- Body of a JSON string after the opening quote: returns the characters and
the remainder after the closing quote. -/
def jsonStringAux : Nat → List Char → Option (List Char × List Char)
  | 0, _ => none
  | _ + 1, [] => none
  | fuel + 1, c :: cs =>
    if c = '"' then some ([], cs)
    else if c = '\\' then
      match cs with
      | [] => none
      | e :: cs2 =>
        let cont := fun (ch : Char) (rest : List Char) =>
          (jsonStringAux fuel rest).map (fun p => (ch :: p.1, p.2))
        if e = '"' then cont '"' cs2
        else if e = '\\' then cont '\\' cs2
        else if e = '/' then cont '/' cs2
        else if e = 'b' then cont (Char.ofNat 8) cs2
        else if e = 'f' then cont (Char.ofNat 12) cs2
        else if e = 'n' then cont '\n' cs2
        else if e = 'r' then cont '\r' cs2
        else if e = 't' then cont '\t' cs2
        else if e = 'u' then
          match cs2 with
          | h1 :: h2 :: h3 :: h4 :: cs3 =>
            match hexVal h1, hexVal h2, hexVal h3, hexVal h4 with
            | some v1, some v2, some v3, some v4 =>
              let code := ((v1 * 16 + v2) * 16 + v3) * 16 + v4
              if code < 55296 ∨ 57343 < code then cont (Char.ofNat code) cs3 else none
            | _, _, _, _ => none
          | _ => none
        else none
    else if c.toNat < 32 then none
    else (jsonStringAux fuel cs).map (fun p => (c :: p.1, p.2))

/-- Greedy run of decimal digits: value, digit count and the remainder. -/
def jsonDigitsAux : List Char → Nat → Nat → Nat × Nat × List Char
  | [], acc, cnt => (acc, cnt, [])
  | c :: cs, acc, cnt =>
    match digitVal c with
    | some d => jsonDigitsAux cs (acc * 10 + d) (cnt + 1)
    | none => (acc, cnt, c :: cs)

/-- A number continued by `.`, `e` or `E` lies outside the integer fragment. -/
def numTailBad : List Char → Bool
  | [] => false
  | c :: _ => c = '.' ∨ c = 'e' ∨ c = 'E'

mutual

/-- One JSON value with leading whitespace, returning the remainder.
The fuel decreases on every nested value; `input.length + 1` always suffices. -/
def jsonValueAux : Nat → List Char → Option (JsonValue × List Char)
  | 0, _ => none
  | fuel + 1, input =>
    match skipWs input with
    | [] => none
    | c :: cs =>
      if c = 'n' then
        match cs with
        | 'u' :: 'l' :: 'l' :: r => some (JsonValue.null, r)
        | _ => none
      else if c = 't' then
        match cs with
        | 'r' :: 'u' :: 'e' :: r => some (JsonValue.bool true, r)
        | _ => none
      else if c = 'f' then
        match cs with
        | 'a' :: 'l' :: 's' :: 'e' :: r => some (JsonValue.bool false, r)
        | _ => none
      else if c = '"' then
        (jsonStringAux (cs.length + 1) cs).map (fun p => (JsonValue.str (String.mk p.1), p.2))
      else if c = '-' then
        match jsonDigitsAux cs 0 0 with
        | (v, cnt, r) =>
          if cnt = 0 ∨ numTailBad r then none
          else some (JsonValue.num (-(v : Int)), r)
      else if (digitVal c).isSome then
        match jsonDigitsAux (c :: cs) 0 0 with
        | (v, _, r) =>
          if numTailBad r then none else some (JsonValue.num (v : Int), r)
      else if c = '[' then
        match skipWs cs with
        | ']' :: r => some (JsonValue.arr [], r)
        | _ => (jsonArrayAux fuel cs).map (fun p => (JsonValue.arr p.1, p.2))
      else if c = Char.ofNat 123 then
        match skipWs cs with
        | d :: r => if d = Char.ofNat 125 then some (JsonValue.obj [], r)
                    else (jsonObjectAux fuel cs).map (fun p => (JsonValue.obj p.1, p.2))
        | [] => none
      else none

/-- Comma-separated array elements up to the closing bracket. -/
def jsonArrayAux : Nat → List Char → Option (List JsonValue × List Char)
  | 0, _ => none
  | fuel + 1, input =>
    match jsonValueAux fuel input with
    | none => none
    | some (v, rest) =>
      match skipWs rest with
      | ',' :: r2 => (jsonArrayAux fuel r2).map (fun p => (v :: p.1, p.2))
      | ']' :: r2 => some ([v], r2)
      | _ => none

/-- Comma-separated object members up to the closing brace. -/
def jsonObjectAux : Nat → List Char → Option (List (String × JsonValue) × List Char)
  | 0, _ => none
  | fuel + 1, input =>
    match skipWs input with
    | [] => none
    | c :: cs =>
      if c = '"' then
        match jsonStringAux (cs.length + 1) cs with
        | none => none
        | some (k, r1) =>
          match skipWs r1 with
          | ':' :: r2 =>
            match jsonValueAux fuel r2 with
            | none => none
            | some (v, r3) =>
              match skipWs r3 with
              | d :: r4 =>
                if d = ',' then
                  (jsonObjectAux fuel r4).map (fun p => ((String.mk k, v) :: p.1, p.2))
                else if d = Char.ofNat 125 then some ([(String.mk k, v)], r4)
                else none
              | [] => none
          | _ => none
      else none

end

/-- Models `JSON.parse` on the integer fragment: the whole input must be one
value surrounded only by whitespace. -/
def jsonParse (s : String) : Option JsonValue :=
  match jsonValueAux (s.length + 1) s.data with
  | some (j, rest) => if skipWs rest = [] then some j else none
  | none => none

/-- Escape of one character inside a serialized JSON string, as
`JSON.stringify` performs it. -/
def jsonEscapeCh (c : Char) : String :=
  if c = '"' then "\\\""
  else if c = '\\' then "\\\\"
  else if c = '\n' then "\\n"
  else if c = '\r' then "\\r"
  else if c = '\t' then "\\t"
  else if c.toNat = 8 then "\\b"
  else if c.toNat = 12 then "\\f"
  else if c.toNat < 32 then
    "\\u00" ++ String.mk [Nat.digitChar (c.toNat / 16), Nat.digitChar (c.toNat % 16)]
  else String.mk [c]

/-- A serialized JSON string with surrounding quotes. -/
def jsonQuote (s : String) : String :=
  "\"" ++ String.join (s.data.map jsonEscapeCh) ++ "\""

mutual

/-- Models `JSON.stringify(v, null, 2)` at a given indentation depth. -/
def jsonPretty : JsonValue → Nat → String
  | JsonValue.null, _ => "null"
  | JsonValue.bool true, _ => "true"
  | JsonValue.bool false, _ => "false"
  | JsonValue.num n, _ => toString n
  | JsonValue.str s, _ => jsonQuote s
  | JsonValue.arr [], _ => "[]"
  | JsonValue.arr (x :: xs), ind =>
    "[\n" ++ jsonPrettyItems (x :: xs) (ind + 2) ++ "\n" ++ spaces ind ++ "]"
  | JsonValue.obj [], _ => "\x7b\x7d"
  | JsonValue.obj (kv :: kvs), ind =>
    "\x7b\n" ++ jsonPrettyMembers (kv :: kvs) (ind + 2) ++ "\n" ++ spaces ind ++ "\x7d"

/-- Indented, comma-separated array elements. -/
def jsonPrettyItems : List JsonValue → Nat → String
  | [], _ => ""
  | [x], ind => spaces ind ++ jsonPretty x ind
  | x :: y :: xs, ind =>
    spaces ind ++ jsonPretty x ind ++ ",\n" ++ jsonPrettyItems (y :: xs) ind

/-- Indented, comma-separated object members. -/
def jsonPrettyMembers : List (String × JsonValue) → Nat → String
  | [], _ => ""
  | [(k, v)], ind => spaces ind ++ jsonQuote k ++ ": " ++ jsonPretty v ind
  | (k, v) :: m :: ms, ind =>
    spaces ind ++ jsonQuote k ++ ": " ++ jsonPretty v ind ++ ",\n" ++
      jsonPrettyMembers (m :: ms) ind

end

/-- Models `JSON.stringify(parsed, null, 2)` as `safelyDecodeBytes` calls it. -/
def jsonStringifyPretty (j : JsonValue) : String := jsonPretty j 0

/-! ### Cryptographic primitives

The tweetnacl and @noble/hashes primitives are external library code.  They are
embedded with their exact interface behaviour (argument length checks, error
strings, output lengths, tag-checked authenticated decryption) taken from the
libraries' sources; the digest / curve point values themselves are deterministic
stand-ins, since no claim settled here depends on the concrete field arithmetic,
only on determinism, lengths and whether keys on the two sides coincide. -/

/-- Deterministic mixing fold used by the primitive stand-ins.  The modulus is
the prime 2^32 - 5, so byte-wise differences of inputs do not propagate to
byte-wise differences of outputs in any structured way. -/
def mixFold (l : Bytes) (init : Nat) : Nat :=
  l.foldl (fun a b => (a * 131 + b * b + b + 1) % 4294967291) init

/-- Models `sha512` of @noble/hashes: deterministic, 64-byte digest. -/
def sha512M (l : Bytes) : Bytes :=
  (List.range 64).map (fun i => mixFold l (i + 1) % 256)

/-- Models the Ed25519 public key computed by `nacl.sign.keyPair.fromSeed`:
deterministic, 32 bytes. -/
def ed25519PubM (seed : Bytes) : Bytes :=
  (List.range 32).map (fun i => mixFold (0 :: seed) (2 * i + 5) % 256)

/-- Models the X25519 public key computed by `nacl.box.keyPair.fromSecretKey`:
deterministic, 32 bytes. -/
def curvePubM (sk : Bytes) : Bytes :=
  (List.range 32).map (fun i => mixFold (1 :: sk) (7 * i + 11) % 256)

/-- Models the shared key `HSalsa20(scalarmult(sk, pk))` computed inside
`nacl.box.before`: deterministic, 32 bytes. -/
def curveSharedM (sk : Bytes) (pk : Bytes) : Bytes :=
  (List.range 32).map (fun i => mixFold (sk ++ (17 :: pk)) (3 * i + 7) % 256)

/-- Models the 16-byte Poly1305 authenticator of the secretbox construction. -/
def tag16 (m : Bytes) (nonce : Bytes) (key : Bytes) : Bytes :=
  (List.range 16).map (fun i => mixFold (key ++ (251 :: nonce) ++ (252 :: m)) (5 * i + 3) % 256)

/-- An asymmetric keypair as tweetnacl returns it (`publicKey`/`secretKey`).
Also the shape of the interface `DerivedKeypair` in the source. -/
structure DerivedKeypair where
  publicKey : Bytes
  secretKey : Bytes

/-- Models `nacl.box.before(publicKey, secretKey)` including its
`checkBoxLengths` guards: the public key must be 32 bytes and the secret key
must be 32 bytes, otherwise tweetnacl throws. -/
def boxBefore (pk : Bytes) (sk : Bytes) : Except String Bytes :=
  if pk.length ≠ 32 then Except.error "bad public key size"
  else if sk.length ≠ 32 then Except.error "bad secret key size"
  else Except.ok (curveSharedM sk pk)

/-- Models `nacl.box.after` (= `nacl.secretbox`): length-checks the key and
nonce, then returns authenticator-plus-message. -/
def boxAfter (m : Bytes) (nonce : Bytes) (key : Bytes) : Except String Bytes :=
  if key.length ≠ 32 then Except.error "bad key size"
  else if nonce.length ≠ 24 then Except.error "bad nonce size"
  else Except.ok (tag16 m nonce key ++ m)

/-- Models `nacl.box.open.after` (= `nacl.secretbox.open`): length-checks the
key and nonce (throwing as tweetnacl does), returns `none` for a too-short
ciphertext or a failed authenticator check, and the message on success. -/
def boxOpenAfter (ct : Bytes) (nonce : Bytes) (key : Bytes) :
    Except String (Option Bytes) :=
  if key.length ≠ 32 then Except.error "bad key size"
  else if nonce.length ≠ 24 then Except.error "bad nonce size"
  else if ct.length < 16 then Except.ok none
  else if ct.take 16 = tag16 (ct.drop 16) nonce key then Except.ok (some (ct.drop 16))
  else Except.ok none

/-- Models `nacl.sign.keyPair.fromSeed`: requires a 32-byte seed and returns
an Ed25519 keypair whose secret key is the 64-byte concatenation of the seed
and the public key — the length that later defeats `box.before`. -/
def signKeyPairFromSeed (seed : Bytes) : Except String DerivedKeypair :=
  if seed.length ≠ 32 then Except.error "bad seed size"
  else Except.ok ⟨ed25519PubM seed, seed ++ ed25519PubM seed⟩

/-- Models `nacl.box.keyPair.fromSecretKey`: requires a 32-byte secret key. -/
def boxKeyPairFromSecretKey (sk : Bytes) : Except String DerivedKeypair :=
  if sk.length ≠ 32 then Except.error "bad secret key size"
  else Except.ok ⟨curvePubM sk, sk⟩

/-- `true` exactly on successful results. -/
def exceptIsOk {α : Type} : Except String α → Bool
  | Except.ok _ => true
  | Except.error _ => false

/-! ### The embedded source functions of `src/utils/encryption.ts` -/

/-- The envelope interface `EncryptedData`: three base64 strings. -/
structure EncryptedData where
  ciphertext : String
  nonce : String
  ephemeralPublicKey : String

/-- The wallet capability surface the module touches: `wallet.publicKey`
(accessed through `.toBase58()`, embedded directly as the base58 address),
`wallet.signMessage`, and `wallet.name`.  Absent members are `none`. -/
structure Wallet where
  publicKey : Option String
  signMessage : Option (Bytes → Except String Bytes)
  name : String

/-- The binary branch of `safelyDecodeBytes`: the labeled, truncated preview
built when strict UTF-8 decoding has failed. -/
def binaryPreview (bytes : Bytes) : String :=
  "[⚠️ Binary data (" ++ toString bytes.length ++ " bytes)]\n" ++
    "Base64: " ++ sliceTo (encodeBase64S bytes) 32 ++ "...\n" ++
    "Hex: " ++ sliceTo (hexSpaced bytes) 48 ++ "..."

/-- `safelyDecodeBytes` (lines 35–87): empty input yields the sentinel
`[❌ Empty data]`; valid UTF-8 that looks like JSON (first byte 123, last 125)
and parses is returned as the whole value pretty-printed via
`JSON.stringify(parsed, null, 2)`; other valid UTF-8 is returned verbatim;
invalid UTF-8 yields the labeled binary preview. -/
def safelyDecodeBytes (bytes : Bytes) : String :=
  if bytes.length = 0 then "[❌ Empty data]"
  else
    match utf8Decode bytes with
    | none => binaryPreview bytes
    | some text =>
      if text = "" then binaryPreview bytes
      else if bytes.head? = some 123 ∧ bytes.getLast? = some 125 then
        match jsonParse text with
        | some parsed => jsonStringifyPretty parsed
        | none => text
      else text

/-- `safeDecryptToString` (lines 89–94): `null` decrypted bytes become the
sentinel `[❌ Failed to decrypt]`. -/
def safeDecryptToString (decryptedBytes : Option Bytes) : String :=
  match decryptedBytes with
  | none => "[❌ Failed to decrypt]"
  | some bytes => safelyDecodeBytes bytes

/-- `validateEncryptedData` (lines 96–125): checks the three fields are
non-empty, base64-decodable, the nonce is 24 bytes, the ephemeral public key
32 bytes, and the ciphertext non-empty (its only length requirement); any
failure is rewrapped as `Invalid encrypted data: …`. -/
def validateEncryptedData (data : EncryptedData) : Except String Unit :=
  let inner : Except String Unit :=
    if data.ciphertext = "" ∨ data.nonce = "" ∨ data.ephemeralPublicKey = "" then
      Except.error "Missing required encryption fields"
    else
      match decodeBase64E data.ciphertext with
      | Except.error m => Except.error ("Invalid base64 in ciphertext: " ++ m)
      | Except.ok ciphertext =>
        match decodeBase64E data.nonce with
        | Except.error m => Except.error ("Invalid base64 in nonce: " ++ m)
        | Except.ok nonce =>
          match decodeBase64E data.ephemeralPublicKey with
          | Except.error m => Except.error ("Invalid base64 in ephemeralPublicKey: " ++ m)
          | Except.ok ephemeralPublicKey =>
            if nonce.length ≠ 24 then
              Except.error ("Invalid nonce length: " ++ toString nonce.length)
            else if ephemeralPublicKey.length ≠ 32 then
              Except.error ("Invalid public key length: " ++ toString ephemeralPublicKey.length)
            else if ciphertext.length = 0 then Except.error "Empty ciphertext"
            else Except.ok ()
  match inner with
  | Except.ok () => Except.ok ()
  | Except.error m => Except.error ("Invalid encrypted data: " ++ m)

/-- The challenge string signed by `deriveKeypairFromWallet`. -/
def deriveChallenge (walletAddress : String) : String :=
  "DM_DEV_DERIVE_KEY:" ++ walletAddress

/-- `deriveKeypairFromWallet` (lines 168–194) together with the list of
challenge strings it asked the wallet to sign (the observable signing
requests): requires `wallet.publicKey` and `wallet.signMessage`, signs
`DM_DEV_DERIVE_KEY:<address>`, hashes the signature with SHA-512, and builds
an Ed25519 keypair from the first 32 digest bytes.  No signature length is
ever checked. -/
def deriveKeypairFromWalletT (wallet : Wallet) :
    Except String DerivedKeypair × List String :=
  match wallet.publicKey, wallet.signMessage with
  | some walletAddress, some signMessage =>
    let messageToSign := deriveChallenge walletAddress
    match signMessage (utf8Encode messageToSign) with
    | Except.error e => (Except.error e, [messageToSign])
    | Except.ok signedMessage =>
      let seed := (sha512M signedMessage).take 32
      (signKeyPairFromSeed seed, [messageToSign])
  | _, _ => (Except.error "Wallet does not support required methods", [])

/-- `deriveKeypairFromWallet` without the instrumented request list. -/
def deriveKeypairFromWallet (wallet : Wallet) : Except String DerivedKeypair :=
  (deriveKeypairFromWalletT wallet).1

/-- The versioned plaintext wrapper `JSON.stringify(\x7b v: 2, data: message \x7d)`
built inside `encryptMessage`. -/
def encodeMessageV2 (message : String) : String :=
  "\x7b\"v\":2,\"data\":" ++ jsonQuote message ++ "\x7d"

/-- `encryptMessage` (lines 199–238).  The fresh random nonce and ephemeral
keypair drawn inside the function are passed explicitly.  Rejects an empty
message and an empty recipient key string, decodes the recipient's base58
derived public key, computes the shared key with `box.before`, wraps the
message in the versioned JSON and seals it with `box.after`. -/
def encryptMessage (nonce : Bytes) (ephemeralKeypair : DerivedKeypair)
    (message : String) (recipientDerivedPublicKeyBase58 : String) :
    Except String EncryptedData :=
  if message = "" then Except.error "Message cannot be empty"
  else if recipientDerivedPublicKeyBase58 = "" then
    Except.error "Recipient derived public key is required"
  else
    match fromBase58E recipientDerivedPublicKeyBase58 with
    | Except.error e => Except.error e
    | Except.ok recipientDerivedPublicKey =>
      match boxBefore recipientDerivedPublicKey ephemeralKeypair.secretKey with
      | Except.error e => Except.error e
      | Except.ok sharedKey =>
        let messageBytes := utf8Encode (encodeMessageV2 message)
        match boxAfter messageBytes nonce sharedKey with
        | Except.error e => Except.error e
        | Except.ok ciphertext =>
          Except.ok ⟨encodeBase64S ciphertext, encodeBase64S nonce,
            encodeBase64S ephemeralKeypair.publicKey⟩

/-- The three envelope fields decoded from base64, in the order every
decryption method reads them (nonce, ciphertext, ephemeral public key). -/
def decode3 (e : EncryptedData) : Except String (Bytes × Bytes × Bytes) :=
  match decodeBase64E e.nonce with
  | Except.error m => Except.error m
  | Except.ok nonce =>
    match decodeBase64E e.ciphertext with
    | Except.error m => Except.error m
    | Except.ok ciphertext =>
      match decodeBase64E e.ephemeralPublicKey with
      | Except.error m => Except.error m
      | Except.ok ephemeralPublicKey => Except.ok (nonce, ciphertext, ephemeralPublicKey)

/-- Method 1 of `decryptMessage` (lines 249–282): re-derive the Ed25519
keypair, decode the envelope, build the shared key from the ephemeral public
key and the 64-byte derived secret key, and open the box.  Any thrown error is
caught and surfaces as a failed attempt (`none`). -/
def decryptMethod1Result (e : EncryptedData) (w : Wallet) : Option Bytes :=
  match (deriveKeypairFromWalletT w).1 with
  | Except.error _ => none
  | Except.ok derivedKeypair =>
    match decode3 e with
    | Except.error _ => none
    | Except.ok (nonce, ciphertext, ephemeralPublicKey) =>
      match boxBefore ephemeralPublicKey derivedKeypair.secretKey with
      | Except.error _ => none
      | Except.ok sharedKey =>
        match boxOpenAfter ciphertext nonce sharedKey with
        | Except.error _ => none
        | Except.ok r => r

/-- The signing request made by method 2: the legacy challenge
`DM_DEV_DECRYPT:<address>`, asked for whenever the wallet exposes both
members (the signature request happens before the envelope is decoded). -/
def decryptMethod2Signed (w : Wallet) : List String :=
  match w.publicKey, w.signMessage with
  | some walletAddress, some _ => ["DM_DEV_DECRYPT:" ++ walletAddress]
  | _, _ => []

/-- Method 2 of `decryptMessage` (lines 284–314): sign the legacy challenge
`DM_DEV_DECRYPT:<address>`, hash the signature into an X25519 keypair via
`box.keyPair.fromSecretKey`, and open the box with it. -/
def decryptMethod2Result (e : EncryptedData) (w : Wallet) : Option Bytes :=
  match w.publicKey, w.signMessage with
  | some walletAddress, some signMessage =>
    match signMessage (utf8Encode ("DM_DEV_DECRYPT:" ++ walletAddress)) with
    | Except.error _ => none
    | Except.ok signature =>
      match boxKeyPairFromSecretKey ((sha512M signature).take 32) with
      | Except.error _ => none
      | Except.ok keypair =>
        match decode3 e with
        | Except.error _ => none
        | Except.ok (nonce, ciphertext, ephemeralPublicKey) =>
          match boxBefore ephemeralPublicKey keypair.secretKey with
          | Except.error _ => none
          | Except.ok sharedKey =>
            match boxOpenAfter ciphertext nonce sharedKey with
            | Except.error _ => none
            | Except.ok r => r
  | _, _ => none

/-- The signing request made by one fallback iteration. -/
def fallbackSigned (w : Wallet) (msg : String) : List String :=
  match w.signMessage with
  | none => []
  | some _ => [msg]

/-- One iteration of the fallback loop (lines 323–347): sign the given legacy
challenge, hash the signature into a shared-key seed, and open the box. -/
def fallbackResult (e : EncryptedData) (w : Wallet) (msg : String) : Option Bytes :=
  match w.signMessage with
  | none => none
  | some signMessage =>
    match signMessage (utf8Encode msg) with
    | Except.error _ => none
    | Except.ok signature =>
      match decode3 e with
      | Except.error _ => none
      | Except.ok (nonce, ciphertext, ephemeralPublicKey) =>
        match boxBefore ephemeralPublicKey ((sha512M signature).take 32) with
        | Except.error _ => none
        | Except.ok sharedKey =>
          match boxOpenAfter ciphertext nonce sharedKey with
          | Except.error _ => none
          | Except.ok r => r

/-- The fallback loop over the remaining legacy challenge strings, stopping at
the first success; the second component lists the signing requests made. -/
def tryFallbacks (e : EncryptedData) (w : Wallet) : List String → Option Bytes × List String
  | [] => (none, [])
  | msg :: rest =>
    match fallbackResult e w msg with
    | some b => (some b, fallbackSigned w msg)
    | none =>
      match tryFallbacks e w rest with
      | (r, t2) => (r, fallbackSigned w msg ++ t2)

/-- The legacy challenge strings tried by methods 3–5 (lines 317–321). -/
def fallbackMessages (walletAddress : String) : List String :=
  ["DM_THE_DEV_DECRYPT:" ++ walletAddress,
   "Derive private key for " ++ walletAddress,
   "Sign to decrypt message for " ++ walletAddress]

/-- The single terminal error `decryptMessage` throws after every method has
failed (line 349). -/
def allFailedStr : String :=
  "All decryption methods failed. This message may have been encrypted with an incompatible key or is corrupted."

/-- The uncaught member access `wallet.publicKey.toBase58()` at line 318 when
the wallet has no public key. -/
def typeErrorStr : String := "TypeError: cannot read toBase58 of null"

/-- The outcome of one `decryptMessage` call: its returned value or thrown
error, plus the challenge strings the wallet was asked to sign, in order. -/
structure DecryptOutcome where
  result : Except String Bytes
  signed : List String

/-- `decryptMessage` (lines 243–350): tries method 1 (current derivation),
method 2 (legacy `box.keyPair` derivation) and the three legacy fallback
challenges in order, returning the first successful plaintext; when every
method fails it throws the single terminal error.  No envelope validation is
performed before the attempts. -/
def decryptMessage (encryptedData : EncryptedData) (wallet : Wallet) : DecryptOutcome :=
  let t1 := (deriveKeypairFromWalletT wallet).2
  match decryptMethod1Result encryptedData wallet with
  | some decryptedBytes => ⟨Except.ok decryptedBytes, t1⟩
  | none =>
    let t2 := decryptMethod2Signed wallet
    match decryptMethod2Result encryptedData wallet with
    | some decryptedBytes => ⟨Except.ok decryptedBytes, t1 ++ t2⟩
    | none =>
      match wallet.publicKey with
      | none => ⟨Except.error typeErrorStr, t1 ++ t2⟩
      | some walletAddress =>
        match tryFallbacks encryptedData wallet (fallbackMessages walletAddress) with
        | (some decryptedBytes, t3) => ⟨Except.ok decryptedBytes, t1 ++ t2 ++ t3⟩
        | (none, t3) => ⟨Except.error allFailedStr, t1 ++ t2 ++ t3⟩

/-! ### Concrete fixtures

A deterministic test wallet mirroring the mock wallet of
`testEncryptionDecryption` (lines 355-414): it signs by hashing the message
concatenated with a fixed secret, so re-signing the same challenge reproduces
the same signature bytes. -/

/-- The fixed secret of the deterministic test wallet. -/
def testSecretBytes : Bytes := List.replicate 32 7

/-- The test wallet's address. -/
def testAddr : String := "TestWalletAddr"

/-- A wallet that signs deterministically, as the mock wallet of
`testEncryptionDecryption` does. -/
def testWallet : Wallet :=
  ⟨some testAddr, some (fun b => Except.ok ((sha512M (b ++ testSecretBytes)).take 64)),
    "TestWallet"⟩

/-- The derived public key of a wallet (empty on derivation failure). -/
def derivedPubOf (w : Wallet) : Bytes :=
  match deriveKeypairFromWallet w with
  | Except.ok kp => kp.publicKey
  | Except.error _ => []

/-- The test wallet's derived public key, published in base58 as the
`KeyRegistry` stores it. -/
def testRecipientB58 : String := toBase58 (derivedPubOf testWallet)

/-- A concrete 24-byte nonce standing for the `randomBytes(box.nonceLength)`
draw inside `encryptMessage`. -/
def testNonce : Bytes := (List.range 24).map (fun i => (i * 7 + 3) % 256)

/-- A concrete ephemeral secret key standing for the `box.keyPair()` draw. -/
def testEphSecret : Bytes := (List.range 32).map (fun i => (i * 11 + 5) % 256)

/-- The concrete ephemeral keypair used by the fixtures. -/
def testEphemeralKeypair : DerivedKeypair := ⟨curvePubM testEphSecret, testEphSecret⟩

/-- The envelope produced by encrypting `"hello"` for the test wallet's
derived public key. -/
def testEnvelope : EncryptedData :=
  match encryptMessage testNonce testEphemeralKeypair "hello" testRecipientB58 with
  | Except.ok e => e
  | Except.error _ => ⟨"", "", ""⟩

/-- The fixed secret of a second, unrelated deterministic wallet. -/
def otherSecretBytes : Bytes := List.replicate 32 42

/-- The second wallet's address. -/
def testAddr2 : String := "OtherWalletAddr"

/-- A second wallet whose derived keypair differs from the test wallet's. -/
def testWallet2 : Wallet :=
  ⟨some testAddr2, some (fun b => Except.ok ((sha512M (b ++ otherSecretBytes)).take 64)),
    "OtherWallet"⟩

/-- An envelope whose nonce field decodes to 5 bytes instead of 24. -/
def badNonceEnvelope : EncryptedData :=
  ⟨encodeBase64S (List.replicate 20 1), encodeBase64S [1, 2, 3, 4, 5],
    encodeBase64S (List.replicate 32 2)⟩

/-- An envelope with a single-byte ciphertext: shorter than the 16-byte
authentication tag, yet accepted by `validateEncryptedData`. -/
def shortCtEnvelope : EncryptedData :=
  ⟨encodeBase64S [42], encodeBase64S (List.replicate 24 0),
    encodeBase64S (List.replicate 32 0)⟩

/-- A wallet whose signer returns a single-byte signature. -/
def shortSigWallet : Wallet :=
  ⟨some "ShortSigAddr", some (fun _ => Except.ok [9]), "ShortSigWallet"⟩

/-- A wallet signing deterministically by truncating the message. -/
def twinWalletA : Wallet :=
  ⟨some "TwinAddr", some (fun b => Except.ok (b.take 48)), "WalletA"⟩

/-- A second wallet object, distinct from `twinWalletA` but with the same
address and the same signing behaviour: a model of the same wallet after a
process restart. -/
def twinWalletB : Wallet :=
  ⟨some "TwinAddr", some (fun b => Except.ok (b.take 48)), "WalletB"⟩

/-! ### Helper lemmas -/

/-- The SHA-512 model always yields a 64-byte digest. -/
theorem sha512M_length (l : Bytes) : (sha512M l).length = 64 := by
  simp [sha512M]

/-- The Ed25519 public-key model always yields 32 bytes. -/
theorem ed25519PubM_length (seed : Bytes) : (ed25519PubM seed).length = 32 := by
  simp [ed25519PubM]

/-- Whenever the derivation succeeds, the secret key it hands back is the
64-byte Ed25519 secret key (seed concatenated with public key). -/
theorem derive_secretKey_length (w : Wallet) (kp : DerivedKeypair)
    (h : deriveKeypairFromWallet w = Except.ok kp) : kp.secretKey.length = 64 := by
  unfold deriveKeypairFromWallet deriveKeypairFromWalletT at h
  rcases hpk : w.publicKey with _ | a <;> rcases hsm : w.signMessage with _ | s <;>
    rw [hpk, hsm] at h <;> simp at h
  rcases hsig : s (utf8Encode (deriveChallenge a)) with msg | sig <;> rw [hsig] at h <;>
    simp [signKeyPairFromSeed] at h
  have hseed : ((sha512M sig).take 32).length = 32 := by
    simp [List.length_take, sha512M_length]
  rw [if_neg (by rw [sha512M_length]; norm_num)] at h
  simp at h
  rw [← h]
  simp [hseed, ed25519PubM_length]

/-- Method 1 of `decryptMessage` can never succeed: the derived secret key is
64 bytes long, and `box.before` rejects any secret key that is not exactly 32
bytes.  This holds for every envelope and every wallet. -/
theorem decryptMethod1Result_none (e : EncryptedData) (w : Wallet) :
    decryptMethod1Result e w = none := by
  unfold decryptMethod1Result
  rcases hd : (deriveKeypairFromWalletT w).1 with msg | kp
  · rfl
  · have hlen : kp.secretKey.length = 64 := derive_secretKey_length w kp hd
    rcases hdc : decode3 e with msg | ⟨nonce, ciphertext, ephemeralPublicKey⟩
    · rfl
    · dsimp only
      unfold boxBefore
      rw [hlen]
      by_cases heph : ephemeralPublicKey.length = 32
      · rw [if_neg (by simp [heph]), if_pos (by norm_num)]
      · rw [if_pos heph]

/-- The signing requests of the key derivation: when the wallet exposes both
members, exactly the derive challenge is signed, whatever the signer answers. -/
theorem deriveT_signed (w : Wallet) (a : String) (s : Bytes → Except String Bytes)
    (hpk : w.publicKey = some a) (hsm : w.signMessage = some s) :
    (deriveKeypairFromWalletT w).2 = [deriveChallenge a] := by
  unfold deriveKeypairFromWalletT
  rw [hpk, hsm]
  rcases hsig : s (utf8Encode (deriveChallenge a)) with msg | sig <;> simp [hsig]

/-- Shape of a `decryptMessage` outcome for a wallet with a public key: it is
either a success or the single terminal error; no other error escapes. -/
theorem decrypt_result_shape (e : EncryptedData) (w : Wallet) (a : String)
    (hpk : w.publicKey = some a) :
    (∃ b, (decryptMessage e w).result = Except.ok b) ∨
      (decryptMessage e w).result = Except.error allFailedStr := by
  unfold decryptMessage
  rcases h1 : decryptMethod1Result e w with _ | b
  · rcases h2 : decryptMethod2Result e w with _ | b
    · rcases h3 : tryFallbacks e w (fallbackMessages a) with ⟨r3, t3⟩
      rcases r3 with _ | b
      · right; simp [h1, h2, hpk, h3]
      · left; exact ⟨b, by simp [h1, h2, hpk, h3]⟩
    · left; exact ⟨b, by simp [h1, h2]⟩
  · left; exact ⟨b, by simp [h1]⟩

/-- The first signing request of every `decryptMessage` call is the derive
challenge: it is issued before any envelope field is even decoded. -/
theorem decrypt_signed_head (e : EncryptedData) (w : Wallet) (a : String)
    (s : Bytes → Except String Bytes)
    (hpk : w.publicKey = some a) (hsm : w.signMessage = some s) :
    (decryptMessage e w).signed.head? = some (deriveChallenge a) := by
  have ht1 : (deriveKeypairFromWalletT w).2 = [deriveChallenge a] :=
    deriveT_signed w a s hpk hsm
  unfold decryptMessage
  rcases h1 : decryptMethod1Result e w with _ | b
  · rcases h2 : decryptMethod2Result e w with _ | b
    · rcases h3 : tryFallbacks e w (fallbackMessages a) with ⟨r3, t3⟩
      rcases r3 with _ | b
      · simp [h1, h2, hpk, h3, ht1]
      · simp [h1, h2, hpk, h3, ht1]
    · simp [h1, h2, ht1]
  · simp [h1, ht1]

/-- Character-count of a JavaScript-style slice: at most `n`. -/
theorem sliceTo_length_le (s : String) (n : Nat) : (sliceTo s n).length ≤ n := by
  have : (sliceTo s n).length = (s.data.take n).length := rfl
  rw [this, List.length_take]
  exact min_le_left _ _

/-! ### The claims -/

/-- C1: the spec's round-trip property — decrypting `encrypt(P, K.public)`
with the re-derived keypair succeeds and yields `P` — fails on the code.
Method 1 of `decryptMessage` can never succeed on any envelope and wallet,
because the derived Ed25519 secret key is 64 bytes and `box.before` rejects
it, and the fallback methods sign different challenge strings and so derive
different keys; concretely, encrypting `"hello"` for the test wallet's
published derived key succeeds, yet decrypting that very envelope with the
same wallet throws the terminal all-methods-failed error.  The code's own
`testEncryptionDecryption` expects this round trip to succeed. -/
theorem c1_roundtrip_fails :
    (∀ (e : EncryptedData) (w : Wallet), decryptMethod1Result e w = none) ∧
    encryptMessage testNonce testEphemeralKeypair "hello" testRecipientB58 =
      Except.ok testEnvelope ∧
    (decryptMessage testEnvelope testWallet).result = Except.error allFailedStr :=
  ⟨decryptMethod1Result_none, rfl, rfl⟩

/-- C2 counterexample: the bytes of `\x7b"version":1,"payload":"hi"\x7d` decode as
UTF-8 and parse as the versioned schema, yet `safelyDecodeBytes` returns the
whole JSON structure pretty-printed, not the unwrapped payload `"hi"`. -/
theorem c2_counterexample :
    safelyDecodeBytes (utf8Encode "\x7b\"version\":1,\"payload\":\"hi\"\x7d") =
      "\x7b\n  \"version\": 1,\n  \"payload\": \"hi\"\n\x7d" ∧
    safelyDecodeBytes (utf8Encode "\x7b\"version\":1,\"payload\":\"hi\"\x7d") ≠ "hi" :=
  ⟨rfl, by decide⟩

/-- C2 amended: on bytes that decode as non-empty UTF-8, start with `\x7b`, end
with `\x7d` and parse as JSON, `safelyDecodeBytes` returns the whole parsed value
re-serialized by `JSON.stringify(parsed, null, 2)` — no payload field is ever
extracted. -/
theorem c2_amended (bytes : Bytes) (text : String) (j : JsonValue)
    (hdec : utf8Decode bytes = some text) (hne : text ≠ "")
    (hfst : bytes.head? = some 123) (hlst : bytes.getLast? = some 125)
    (hjson : jsonParse text = some j) :
    safelyDecodeBytes bytes = jsonStringifyPretty j := by
  have hb : bytes.length ≠ 0 := by
    intro h0
    rw [List.length_eq_zero] at h0
    subst h0
    simp at hfst
  unfold safelyDecodeBytes
  rw [if_neg hb, hdec]
  simp [hne, hfst, hlst, hjson]

/-- C2 witness: the amended statement evaluated on the counterexample bytes. -/
theorem c2_witness :
    safelyDecodeBytes (utf8Encode "\x7b\"version\":1,\"payload\":\"hi\"\x7d") =
      jsonStringifyPretty
        (JsonValue.obj [("version", JsonValue.num 1), ("payload", JsonValue.str "hi")]) :=
  c2_amended _ _ _ rfl (by decide) rfl rfl rfl

/-- C3 counterexample: the claim that no core function swallows a failure into
a sentinel placeholder string is false — `safeDecryptToString` turns `null`
decrypted bytes into the sentinel `[❌ Failed to decrypt]`, and
`safelyDecodeBytes` turns empty input into the sentinel `[❌ Empty data]`,
both plain strings indistinguishable from successfully decoded messages. -/
theorem c3_counterexample :
    safeDecryptToString none = "[❌ Failed to decrypt]" ∧
    safelyDecodeBytes [] = "[❌ Empty data]" :=
  ⟨rfl, rfl⟩

/-- C3 amended: the decode helpers swallow failures into sentinel strings
(`[❌ Failed to decrypt]` on null input, `[❌ Empty data]` on empty input),
while the derivation surfaces an explicit error on a wallet without the
required members. -/
theorem c3_amended :
    safeDecryptToString none = "[❌ Failed to decrypt]" ∧
    safelyDecodeBytes [] = "[❌ Empty data]" ∧
    deriveKeypairFromWallet ⟨none, none, "NoWallet"⟩ =
      Except.error "Wallet does not support required methods" :=
  ⟨rfl, rfl, rfl⟩

/-- C4 counterexample: on a failed authenticated decryption, `decryptMessage`
does not stop at a single terminal failure — within one call it requests
signatures for five distinct challenge strings (the derive challenge plus four
legacy alternatives) before throwing. -/
theorem c4_counterexample :
    (decryptMessage testEnvelope testWallet).signed =
      [deriveChallenge testAddr, "DM_DEV_DECRYPT:" ++ testAddr,
        "DM_THE_DEV_DECRYPT:" ++ testAddr, "Derive private key for " ++ testAddr,
        "Sign to decrypt message for " ++ testAddr] ∧
    (decryptMessage testEnvelope testWallet).result = Except.error allFailedStr :=
  ⟨rfl, rfl⟩

/-- C4 amended: when the primary derived-key decryption fails, the engine
retries with up to four alternative challenge-string derivations within the
same call, and only the single terminal error `All decryption methods
failed…` ever escapes — every call on a wallet with a public key either
succeeds or fails with exactly that error. -/
theorem c4_amended (e : EncryptedData) (w : Wallet) (a : String)
    (hpk : w.publicKey = some a) :
    (∃ b, (decryptMessage e w).result = Except.ok b) ∨
      (decryptMessage e w).result = Except.error allFailedStr :=
  decrypt_result_shape e w a hpk

/-- C4 witness: the amended statement evaluated on a malformed envelope. -/
theorem c4_witness :
    (∃ b, (decryptMessage badNonceEnvelope testWallet).result = Except.ok b) ∨
      (decryptMessage badNonceEnvelope testWallet).result = Except.error allFailedStr :=
  c4_amended badNonceEnvelope testWallet testAddr rfl

/-- C5 counterexample: an envelope with a 5-byte nonce — which
`validateEncryptedData` would reject — is attacked by `decryptMessage`
anyway: signature requests are issued and the call ends in the terminal
all-methods-failed error, not in any `Invalid encrypted data` failure. -/
theorem c5_counterexample :
    validateEncryptedData badNonceEnvelope =
      Except.error "Invalid encrypted data: Invalid nonce length: 5" ∧
    (decryptMessage badNonceEnvelope testWallet).signed ≠ [] ∧
    (decryptMessage badNonceEnvelope testWallet).result = Except.error allFailedStr :=
  ⟨rfl, by decide, rfl⟩

/-- C5 amended: `decryptMessage` performs no envelope validation before its
decrypt attempts — its first act on any wallet exposing both members is to
request the derive-challenge signature, whatever the envelope contains — and
the unused `validateEncryptedData` helper only requires a non-empty
ciphertext, accepting a 1-byte ciphertext shorter than the 16-byte
authentication tag. -/
theorem c5_amended (e : EncryptedData) (w : Wallet) (a : String)
    (s : Bytes → Except String Bytes)
    (hpk : w.publicKey = some a) (hsm : w.signMessage = some s) :
    (decryptMessage e w).signed.head? = some (deriveChallenge a) ∧
    validateEncryptedData shortCtEnvelope = Except.ok () :=
  ⟨decrypt_signed_head e w a s hpk hsm, rfl⟩

/-- C5 witness: the amended statement evaluated on the malformed envelope and
the test wallet. -/
theorem c5_witness :
    (decryptMessage badNonceEnvelope testWallet).signed.head? =
      some (deriveChallenge testAddr) ∧
    validateEncryptedData shortCtEnvelope = Except.ok () :=
  c5_amended badNonceEnvelope testWallet testAddr
    (fun b => Except.ok ((sha512M (b ++ testSecretBytes)).take 64)) rfl rfl

/-- C6 counterexample: decrypting an envelope encrypted for the test wallet's
derived public key with a wallet whose derived public key differs neither
fails with `KeyMismatch` nor with `DecryptionFailed` — it fails with the
terminal all-methods-failed error (and the code offers no `expectedPublicKey`
parameter at all). -/
theorem c6_counterexample :
    derivedPubOf testWallet2 ≠ derivedPubOf testWallet ∧
    (decryptMessage testEnvelope testWallet2).result = Except.error allFailedStr ∧
    (decryptMessage testEnvelope testWallet2).result ≠ Except.error "DecryptionFailed" ∧
    (decryptMessage testEnvelope testWallet2).result ≠ Except.error "KeyMismatch" := by
  have hres : (decryptMessage testEnvelope testWallet2).result =
      Except.error allFailedStr := rfl
  refine ⟨by decide, hres, ?_, ?_⟩
  · rw [hres]
    intro h
    exact absurd (Except.error.inj h) (by decide)
  · rw [hres]
    intro h
    exact absurd (Except.error.inj h) (by decide)

/-- C6 amended: `decryptMessage` takes no `expectedPublicKey` argument and has
no `KeyMismatch` failure mode; decrypting with a wallet whose derived key does
not match the envelope ends in the terminal all-methods-failed error, and no
call on a wallet with a public key can ever produce a `KeyMismatch` error. -/
theorem c6_amended :
    (decryptMessage testEnvelope testWallet2).result = Except.error allFailedStr ∧
    ∀ (e : EncryptedData) (w : Wallet) (a : String), w.publicKey = some a →
      (decryptMessage e w).result ≠ Except.error "KeyMismatch" := by
  refine ⟨rfl, ?_⟩
  intro e w a hpk h
  rcases decrypt_result_shape e w a hpk with ⟨b, hb⟩ | hterm
  · rw [hb] at h
    exact Except.noConfusion h
  · rw [hterm] at h
    exact absurd (Except.error.inj h) (by decide)

/-- C6 witness: the amended statement evaluated at a concrete envelope and
wallet. -/
theorem c6_witness :
    (decryptMessage badNonceEnvelope testWallet2).result ≠ Except.error "KeyMismatch" :=
  c6_amended.2 badNonceEnvelope testWallet2 testAddr2 rfl

/-- C7 counterexample: a signer answering with a 1-byte signature — far below
the claimed 32-byte minimum — does not make the derivation fail with
`MalformedSignature`; the derivation succeeds. -/
theorem c7_counterexample :
    exceptIsOk (deriveKeypairFromWallet shortSigWallet) = true :=
  rfl

/-- C7 amended: the derivation surfaces the signer's own error when signing
fails and otherwise succeeds for every signature the signer returns, of any
length — no minimum-length check exists. -/
theorem c7_amended (w : Wallet) (a : String) (s : Bytes → Except String Bytes)
    (hpk : w.publicKey = some a) (hsm : w.signMessage = some s) :
    (∀ err, s (utf8Encode (deriveChallenge a)) = Except.error err →
      deriveKeypairFromWallet w = Except.error err) ∧
    (∀ sig, s (utf8Encode (deriveChallenge a)) = Except.ok sig →
      exceptIsOk (deriveKeypairFromWallet w) = true) := by
  constructor
  · intro err herr
    unfold deriveKeypairFromWallet deriveKeypairFromWalletT
    rw [hpk, hsm]
    simp [herr]
  · intro sig hsig
    unfold deriveKeypairFromWallet deriveKeypairFromWalletT
    rw [hpk, hsm]
    simp [hsig, signKeyPairFromSeed, exceptIsOk, List.length_take, sha512M_length]

/-- C7 witness: the amended statement evaluated on the test wallet. -/
theorem c7_witness :
    exceptIsOk (deriveKeypairFromWallet testWallet) = true :=
  (c7_amended testWallet testAddr
      (fun b => Except.ok ((sha512M (b ++ testSecretBytes)).take 64)) rfl rfl).2
    ((sha512M (utf8Encode (deriveChallenge testAddr) ++ testSecretBytes)).take 64) rfl

/-- C8: derivation is a pure deterministic function of the signature bytes —
two wallet objects with the same address whose signers answer the derive
challenge with the same bytes (as across repeated calls or process restarts)
derive byte-identical keypairs. -/
theorem c8_determinism (w1 w2 : Wallet) (a : String)
    (s1 s2 : Bytes → Except String Bytes)
    (hpk1 : w1.publicKey = some a) (hpk2 : w2.publicKey = some a)
    (hsm1 : w1.signMessage = some s1) (hsm2 : w2.signMessage = some s2)
    (hsig : s1 (utf8Encode (deriveChallenge a)) = s2 (utf8Encode (deriveChallenge a))) :
    deriveKeypairFromWallet w1 = deriveKeypairFromWallet w2 := by
  unfold deriveKeypairFromWallet deriveKeypairFromWalletT
  rw [hpk1, hpk2, hsm1, hsm2]
  dsimp only
  rw [hsig]

/-- C8 witness: two distinct wallet objects with the same address and signing
behaviour derive the same keypair. -/
theorem c8_witness :
    deriveKeypairFromWallet twinWalletA = deriveKeypairFromWallet twinWalletB :=
  c8_determinism twinWalletA twinWalletB "TwinAddr" _ _ rfl rfl rfl rfl rfl

/-- C9: bytes that are not valid UTF-8 are decoded, without raising, to the
labeled representation stating the byte count with previews bounded to 32
base64 and 48 hex characters — both reversible text encodings. -/
theorem c9_binary_tolerance (bytes : Bytes) (hdec : utf8Decode bytes = none) :
    safelyDecodeBytes bytes =
      "[⚠️ Binary data (" ++ toString bytes.length ++ " bytes)]\n" ++
        "Base64: " ++ sliceTo (encodeBase64S bytes) 32 ++ "...\n" ++
        "Hex: " ++ sliceTo (hexSpaced bytes) 48 ++ "..." ∧
    (sliceTo (encodeBase64S bytes) 32).length ≤ 32 ∧
    (sliceTo (hexSpaced bytes) 48).length ≤ 48 := by
  have hb : bytes.length ≠ 0 := by
    intro h0
    rw [List.length_eq_zero] at h0
    subst h0
    simp [utf8Decode, utf8DecodeAux] at hdec
  refine ⟨?_, sliceTo_length_le _ _, sliceTo_length_le _ _⟩
  unfold safelyDecodeBytes
  rw [if_neg hb, hdec]
  rfl

/-- C9 witness: the bytes `[0xFF, 0xFE, 0x00, 0x01]` are rejected by the
strict UTF-8 decoder and produce the binary-tagged preview. -/
theorem c9_witness :
    utf8Decode [255, 254, 0, 1] = none ∧
    safelyDecodeBytes [255, 254, 0, 1] =
      "[⚠️ Binary data (4 bytes)]\nBase64: //4AAQ==...\nHex: ff fe 00 01..." := by
  refine ⟨rfl, ?_⟩
  have h := (c9_binary_tolerance [255, 254, 0, 1] rfl).1
  rw [h]
  rfl

/-- C10: `encryptMessage` rejects the empty string for every nonce, ephemeral
keypair and recipient key, failing with `Message cannot be empty` before any
cryptographic work. -/
theorem c10_empty_message (nonce : Bytes) (ephemeralKeypair : DerivedKeypair)
    (recipientDerivedPublicKeyBase58 : String) :
    encryptMessage nonce ephemeralKeypair "" recipientDerivedPublicKeyBase58 =
      Except.error "Message cannot be empty" :=
  rfl
